import Mathlib

/-!
# BankX ledger engine — shallow embedding and verification

This file embeds the BankX banking API (Go) in Lean 4 and proves or refutes
the frozen specification claims about it.  The embedding follows the source:

* `pkg/utils/utils.go` — `CreateHMAC` (HMAC-SHA256, hex encoded) and the
  `"%f:%d"` data formatting used for the balance integrity tag;
* `internal/services/transaction_service.go` — `ProcessDeposit`,
  `ProcessWithdraw`, `ProcessTransfer`;
* `internal/services/account_service.go` — `GetAccounts`;
* `internal/services/auth_service.go` — `Register`, `CalculateBalanceHash`,
  and the HS256 login-token signing key;
* `internal/models/models.go` — the `Account` / `Transaction` data model and
  the JSON struct tags;
* `cmd/main.go` — the wiring of the single `JWT_SECRET` value into the three
  services.

Modelling conventions:

* Go byte slices are `List Nat` (each entry < 256); Go strings used as byte
  data are converted with `strBytes` (correct for the ASCII data the source
  produces).
* Go `float64` values are the exact rationals they denote; each float
  operation the code performs (`+`, `-`) goes through `roundB64`, IEEE-754
  binary64 round-to-nearest-ties-to-even (normal and subnormal finite range;
  overflow to infinity is outside the model — the ledger never reaches it).
* Go `int` / `uint` identifiers are `Int` (no claim approaches 64-bit
  overflow).
* The database is an explicit state (`DB`); a GORM / `database/sql`
  transaction that returns an error rolls back, so every operation returns
  the post state together with its result, the post state being the pre
  state on every error path.
* Nondeterministic externals (generated transaction id, clock, bcrypt hash,
  autoincremented row ids) are passed as explicit parameters.
* In the SHA-256 compression the eight working variables and the message
  schedule are packed into single naturals, 32 bits per word; the
  `if x = 0 then f 0 else f x` tests in the recursions are semantically
  transparent (both branches agree when `x = 0`) and only force the packed
  accumulator during kernel evaluation.
-/

deriving instance DecidableEq for Except

attribute [local semireducible] Rat.mul Rat.add Rat.sub Rat.inv Rat.ofScientific

namespace BankX

/-! ## Bytes, SHA-256 and HMAC (Go `crypto/sha256` and `crypto/hmac` as
called by `pkg/utils.CreateHMAC`) -/

/-- Bytes of a string, as Go's `[]byte(s)` for the ASCII data the source
builds. -/
def strBytes (s : String) : List Nat := s.toList.map Char.toNat

/-- Truncate to a 32-bit word. -/
def w32 (n : Nat) : Nat := n % 4294967296

/-- 32-bit right rotation. -/
def rotr32 (n x : Nat) : Nat :=
  (x >>> n) ||| ((x <<< (32 - n)) &&& 4294967295)

/-- SHA-256 choice function. -/
def shaCh (x y z : Nat) : Nat := (x &&& y) ^^^ ((x ^^^ 4294967295) &&& z)

/-- SHA-256 majority function. -/
def shaMaj (x y z : Nat) : Nat := (x &&& y) ^^^ (x &&& z) ^^^ (y &&& z)

def bigSigma0 (x : Nat) : Nat := rotr32 2 x ^^^ rotr32 13 x ^^^ rotr32 22 x

def bigSigma1 (x : Nat) : Nat := rotr32 6 x ^^^ rotr32 11 x ^^^ rotr32 25 x

def smallSigma0 (x : Nat) : Nat := rotr32 7 x ^^^ rotr32 18 x ^^^ (x >>> 3)

def smallSigma1 (x : Nat) : Nat := rotr32 17 x ^^^ rotr32 19 x ^^^ (x >>> 10)

/-- The 64 SHA-256 round constants. -/
def shaK : List Nat :=
  [1116352408, 1899447441, 3049323471, 3921009573, 961987163,
   1508970993, 2453635748, 2870763221, 3624381080, 310598401,
   607225278, 1426881987, 1925078388, 2162078206, 2614888103,
   3248222580, 3835390401, 4022224774, 264347078, 604807628,
   770255983, 1249150122, 1555081692, 1996064986, 2554220882,
   2821834349, 2952996808, 3210313671, 3336571891, 3584528711,
   113926993, 338241895, 666307205, 773529912, 1294757372,
   1396182291, 1695183700, 1986661051, 2177026350, 2456956037,
   2730485921, 2820302411, 3259730800, 3345764771, 3516065817,
   3600352804, 4094571909, 275423344, 430227734, 506948616,
   659060556, 883997877, 958139571, 1322822218, 1537002063,
   1747873779, 1955562222, 2024104815, 2227730452, 2361852424,
   2428436474, 2756734187, 3204031479, 3329325298]

/-- Word `i` of a packed word sequence (word `i` at bits `32*i` and up). -/
def schedGet (sched i : Nat) : Nat := (sched >>> (32 * i)) &&& 4294967295

/-- Extend a packed 16-word block to the packed 64-word message schedule
(`fuel` = 48, `n` = number of words already present). -/
def extendSched : Nat → Nat → Nat → Nat
  | 0, _, sched => sched
  | fuel + 1, n, sched =>
    let w := w32 (smallSigma1 (schedGet sched (n - 2)) + schedGet sched (n - 7) +
                  smallSigma0 (schedGet sched (n - 15)) + schedGet sched (n - 16))
    let sched' := sched ||| (w <<< (32 * n))
    if sched' = 0 then extendSched fuel (n + 1) 0 else extendSched fuel (n + 1) sched'

/-- Variable `a` of a packed working state (`a` highest, `h` lowest). -/
def stGet (st i : Nat) : Nat := (st >>> (32 * (7 - i))) &&& 4294967295

/-- One SHA-256 round on the packed working state; `i` indexes the schedule,
`k` is the round constant. -/
def shaRound (sched st i k : Nat) : Nat :=
  let a := stGet st 0
  let b := stGet st 1
  let c := stGet st 2
  let d := stGet st 3
  let e := stGet st 4
  let f := stGet st 5
  let g := stGet st 6
  let h := stGet st 7
  let t1 := w32 (h + bigSigma1 e + shaCh e f g + k + schedGet sched i)
  let t2 := w32 (bigSigma0 a + shaMaj a b c)
  (w32 (t1 + t2) <<< 224) ||| (a <<< 192) ||| (b <<< 160) ||| (c <<< 128) |||
  (w32 (d + t1) <<< 96) ||| (e <<< 64) ||| (f <<< 32) ||| g

/-- The 64 rounds, folded over the round constants. -/
def shaRounds (sched : Nat) : Nat → Nat → List Nat → Nat
  | st, _, [] => st
  | st, i, k :: ks =>
    let st' := shaRound sched st i k
    if st' = 0 then shaRounds sched 0 (i + 1) ks else shaRounds sched st' (i + 1) ks

/-- Word-wise modular addition of two packed states. -/
def addStates (x y : Nat) : Nat :=
  (w32 (stGet x 0 + stGet y 0) <<< 224) ||| (w32 (stGet x 1 + stGet y 1) <<< 192) |||
  (w32 (stGet x 2 + stGet y 2) <<< 160) ||| (w32 (stGet x 3 + stGet y 3) <<< 128) |||
  (w32 (stGet x 4 + stGet y 4) <<< 96) ||| (w32 (stGet x 5 + stGet y 5) <<< 64) |||
  (w32 (stGet x 6 + stGet y 6) <<< 32) ||| w32 (stGet x 7 + stGet y 7)

/-- Pack a list of 32-bit words, word `i` of the block at bits `32*i`. -/
def packWords : List Nat → Nat → Nat
  | [], _ => 0
  | w :: ws, i => (w <<< (32 * i)) ||| packWords ws (i + 1)

/-- SHA-256 compression of one 16-word block into the running hash. -/
def shaCompress (st : Nat) (block : List Nat) : Nat :=
  let sched := extendSched 48 16 (packWords block 0)
  addStates st (shaRounds sched st 0 shaK)

/-- Fold the compression over consecutive 16-word blocks (`fuel` bounds the
number of blocks). -/
def shaBlocks : Nat → Nat → List Nat → Nat
  | 0, st, _ => st
  | _ + 1, st, [] => st
  | fuel + 1, st, ws =>
    let st' := shaCompress st (ws.take 16)
    if st' = 0 then shaBlocks fuel 0 (ws.drop 16) else shaBlocks fuel st' (ws.drop 16)

/-- A natural as `n` big-endian bytes. -/
def natToBytesBE : Nat → Nat → List Nat
  | 0, _ => []
  | n + 1, v => natToBytesBE n (v / 256) ++ [v % 256]

/-- Group bytes into big-endian 32-bit words. -/
def bytesToWordsBE : List Nat → List Nat
  | a :: b :: c :: d :: rest => (((a * 256 + b) * 256 + c) * 256 + d) :: bytesToWordsBE rest
  | _ => []

/-- The SHA-256 initial hash value, packed. -/
def shaH0 : Nat :=
  (1779033703 <<< 224) ||| (3144134277 <<< 192) ||| (1013904242 <<< 160) |||
  (2773480762 <<< 128) ||| (1359893119 <<< 96) |||
  (2600822924 <<< 64) ||| (528734635 <<< 32) |||
  1541459225

/-- SHA-256 padding: `0x80`, zeros, then the 64-bit big-endian bit length. -/
def shaPad (msg : List Nat) : List Nat :=
  let l := msg.length
  let k := (64 - ((l + 9) % 64)) % 64
  msg ++ [128] ++ List.replicate k 0 ++ natToBytesBE 8 (8 * l)

/-- SHA-256 digest of a byte sequence, as a packed 256-bit natural. -/
def sha256Nat (msg : List Nat) : Nat :=
  let ws := bytesToWordsBE (shaPad msg)
  shaBlocks ws.length shaH0 ws

/-- SHA-256 digest of a byte sequence, as 32 bytes. -/
def sha256 (msg : List Nat) : List Nat := natToBytesBE 32 (sha256Nat msg)

/-- HMAC-SHA256 (Go `crypto/hmac` with `sha256.New`): block size 64, key
hashed when longer than one block, inner pad `0x36`, outer pad `0x5c`. -/
def hmacSHA256 (key msg : List Nat) : List Nat :=
  let k0 := if 64 < key.length then sha256 key else key
  let kp := k0 ++ List.replicate (64 - k0.length) 0
  sha256 ((kp.map (fun b => b ^^^ 92)) ++ sha256 ((kp.map (fun b => b ^^^ 54)) ++ msg))

/-- Lower-case hex alphabet (Go `encoding/hex`); its first ten entries are
also the decimal digit alphabet used by the `%d` and `%f` formatting model. -/
def hexAlphabet : List Char := "0123456789abcdef".toList

/-- Hex encoding of bytes. -/
def bytesToHex : List Nat → List Char
  | [] => []
  | b :: rest => hexAlphabet.getD (b / 16) '0' :: hexAlphabet.getD (b % 16) '0' :: bytesToHex rest

/-- `utils.CreateHMAC`: hex-encoded HMAC-SHA256 of `data` under `secret`
(the services pass `[]byte(secretKey)` as the secret). -/
def CreateHMAC (data : String) (secret : String) : String :=
  String.mk (bytesToHex (hmacSHA256 (strBytes secret) (strBytes data)))

/-! ## IEEE-754 binary64 arithmetic model

Go's `float64` is IEEE-754 binary64 with round-to-nearest-ties-to-even.  A
finite float value is an exact rational; `roundB64` maps the exact result of
a rational operation to the float the hardware produces (finite range;
overflow, infinities and NaN do not arise in any state considered here). -/

/-- Floor of a rational as an integer. -/
def qfloor (q : ℚ) : ℤ := q.num.fdiv q.den

/-- Round a rational to the nearest integer, ties to even. -/
def rne (x : ℚ) : ℤ :=
  let f := qfloor x
  let r := x - (f : ℚ)
  if r < 1/2 then f
  else if 1/2 < r then f + 1
  else if f % 2 = 0 then f else f + 1

/-- `2 ^ e` for an integer exponent, as a rational. -/
def pow2 (e : ℤ) : ℚ :=
  if 0 ≤ e then ((2 ^ e.toNat : ℕ) : ℚ) else 1 / ((2 ^ (-e).toNat : ℕ) : ℚ)

/-- Floor of the base-2 logarithm of a positive natural (`fuel` bounds the
result; 4000 covers every magnitude the model meets). -/
def nlog2 : Nat → Nat → Nat
  | 0, _ => 0
  | fuel + 1, n => if n ≤ 1 then 0 else nlog2 fuel (n / 2) + 1

/-- Floor of the base-2 logarithm of a positive rational (junk on `q ≤ 0`). -/
def ilog2q (q : ℚ) : ℤ :=
  let l : ℤ := (nlog2 4000 q.num.natAbs : ℤ) - (nlog2 4000 q.den : ℤ)
  if pow2 l ≤ q then l else l - 1

/-- Round an exact rational to the nearest IEEE-754 binary64 value
(round-to-nearest-ties-to-even, 53-bit significand, subnormal exponent floor
at `2 ^ (-1074)`; overflow not modelled). -/
def roundB64 (q : ℚ) : ℚ :=
  if q = 0 then 0
  else
    let a := if q < 0 then -q else q
    let e0 : ℤ := ilog2q a - 52
    let e : ℤ := if e0 < -1074 then -1074 else e0
    let m : ℤ := rne (a / pow2 e)
    (if q < 0 then -1 else 1) * (m : ℚ) * pow2 e

/-- Go `float64` addition. -/
def fadd (x y : ℚ) : ℚ := roundB64 (x + y)

/-- Go `float64` subtraction. -/
def fsub (x y : ℚ) : ℚ := roundB64 (x - y)

/-! ## `fmt.Sprintf` formatting model

The integrity tag data is built with `fmt.Sprintf("%f:%d", balance, id)`.
`%f` renders a `float64` with exactly six decimals, rounding the exact
binary value to the nearest sixth decimal (no binary64 value is an exact
tie at six decimals, so the tie rule is immaterial). -/

/-- Decimal digits of a natural, most significant first (`fuel` bounds the
digit count; 40 covers every value the model meets). -/
def natDigits : Nat → Nat → List Char
  | 0, _ => []
  | fuel + 1, n =>
    if n < 10 then [hexAlphabet.getD n '0']
    else natDigits fuel (n / 10) ++ [hexAlphabet.getD (n % 10) '0']

/-- Decimal rendering of a natural. -/
def natStr (n : Nat) : String := String.mk (natDigits 40 n)

/-- Go `%d` rendering of an integer. -/
def intStr (i : ℤ) : String :=
  if i < 0 then "-" ++ natStr (-i).toNat else natStr i.toNat

/-- Left-pad a digit list with zeros to width `w`. -/
def zeroPad (w : Nat) (cs : List Char) : List Char :=
  List.replicate (w - cs.length) '0' ++ cs

/-- Go `%f` rendering of a `float64` value: six decimals, rounded. -/
def fmt6 (q : ℚ) : String :=
  let sign := if q < 0 then "-" else ""
  let a := if q < 0 then -q else q
  let n := (rne (a * 1000000)).toNat
  sign ++ natStr (n / 1000000) ++ "." ++ String.mk (zeroPad 6 (natDigits 40 (n % 1000000)))

/-- The integrity tag data `fmt.Sprintf("%f:%d", balance, id)`. -/
def fmtData (balance : ℚ) (id : ℤ) : String :=
  fmt6 balance ++ ":" ++ intStr id

/-- `services.CalculateBalanceHash`: HMAC-SHA256 of `"%f:%d"` of balance and
account id under the secret key, hex encoded. -/
def CalculateBalanceHash (balance : ℚ) (accountID : ℤ) (secretKey : String) : String :=
  CreateHMAC (fmtData balance accountID) secretKey

/-! ## Data model (`internal/models/models.go`, current revision) -/

/-- `models.User`. -/
structure User where
  id : ℤ
  username : String
  password : String
  createdAt : String
deriving DecidableEq

/-- `models.Account`.  `balanceHash` carries the JSON struct tag `"-"` and is
therefore excluded from serialization (see `accountJson`). -/
structure Account where
  id : ℤ
  userId : ℤ
  balance : ℚ
  balanceHash : String
  createdAt : String
deriving DecidableEq

/-- `models.Transaction`. -/
structure Transaction where
  id : String
  fromAccountId : Option ℤ
  toAccountId : Option ℤ
  amount : ℚ
  type : String
  status : String
  createdAt : String
deriving DecidableEq

/-- `models.TransactionRequest` (deposit / withdraw). -/
structure TransactionRequest where
  accountId : ℤ
  amount : ℚ

/-- `models.TransferRequest`. -/
structure TransferRequest where
  fromId : ℤ
  toId : ℤ
  amount : ℚ

/-- `models.Claims` (the verified JWT identity). -/
structure Claims where
  userId : ℤ

/-- The persistent store: the three tables the services touch. -/
structure DB where
  users : List User
  accounts : List Account
  transactions : List Transaction
deriving DecidableEq

/-- `services.AppError`: code, user-facing message, diagnostic details. -/
structure AppError where
  code : ℕ
  message : String
  details : String
deriving DecidableEq

/-- An error is the spec's `IntegrityError` exactly when it carries one of the
three balance-integrity messages the services produce. -/
def AppError.isIntegrityError (e : AppError) : Bool :=
  e.message == "Balance integrity check failed" ||
  e.message == "Source account balance integrity check failed" ||
  e.message == "Destination account balance integrity check failed"

/-- An error is the spec's `InsufficientFundsError` exactly when it carries
one of the two insufficient-funds messages the services produce. -/
def AppError.isInsufficientFundsError (e : AppError) : Bool :=
  e.message == "Insufficient funds" ||
  e.message == "Insufficient funds in source account"

/-! ## Services -/

/-- `services.transactionService` (the database handle is passed per call). -/
structure TransactionService where
  secretKey : String

/-- `services.accountService`. -/
structure AccountService where
  secretKey : String

/-- `services.authService`. -/
structure AuthService where
  jwtKey : String

/-- `services.NewTransactionService`. -/
def NewTransactionService (secretKey : String) : TransactionService := ⟨secretKey⟩

/-- `services.NewAccountService`. -/
def NewAccountService (secretKey : String) : AccountService := ⟨secretKey⟩

/-- `services.NewAuthService`. -/
def NewAuthService (jwtSecret : String) : AuthService := ⟨jwtSecret⟩

/-- `transactionService.ProcessDeposit`.  Returns the post-commit store (the
pre store on every error path — the surrounding transaction rolls back) and
either the generated transaction id (`req.TransactionID`) or the error.
`txId` and `now` stand for `utils.GenerateTransactionID()` and
`utils.GetCurrentTimestamp()`. -/
def ProcessDeposit (s : TransactionService) (db : DB) (req : TransactionRequest)
    (claims : Claims) (txId now : String) : DB × Except AppError String :=
  if req.amount ≤ 0 then
    (db, .error ⟨400, "Invalid deposit amount", "Amount must be positive"⟩)
  else
    match db.accounts.find? (fun a => a.id == req.accountId && a.userId == claims.userId) with
    | none =>
      (db, .error ⟨404, "Account not found or access denied",
        "account_id: " ++ intStr req.accountId ++ ", user_id: " ++ intStr claims.userId⟩)
    | some account =>
      let expectedHash := CreateHMAC (fmtData account.balance req.accountId) s.secretKey
      if account.balanceHash ≠ expectedHash then
        (db, .error ⟨500, "Balance integrity check failed",
          "account_id: " ++ intStr req.accountId⟩)
      else
        let newBalance := fadd account.balance req.amount
        let account' := { account with
          balance := newBalance
          balanceHash := CreateHMAC (fmtData newBalance req.accountId) s.secretKey }
        let txn : Transaction :=
          ⟨txId, none, some req.accountId, req.amount, "deposit", "completed", now⟩
        ({ db with
            accounts := db.accounts.map fun a => if a.id == account.id then account' else a
            transactions := db.transactions ++ [txn] },
         .ok txId)

/-- `transactionService.ProcessWithdraw`. -/
def ProcessWithdraw (s : TransactionService) (db : DB) (req : TransactionRequest)
    (claims : Claims) (txId now : String) : DB × Except AppError String :=
  if req.amount ≤ 0 then
    (db, .error ⟨400, "Invalid withdrawal amount", "Amount must be positive"⟩)
  else
    match db.accounts.find? (fun a => a.id == req.accountId && a.userId == claims.userId) with
    | none =>
      (db, .error ⟨404, "Account not found or access denied",
        "account_id: " ++ intStr req.accountId ++ ", user_id: " ++ intStr claims.userId⟩)
    | some account =>
      let expectedHash := CreateHMAC (fmtData account.balance req.accountId) s.secretKey
      if account.balanceHash ≠ expectedHash then
        (db, .error ⟨500, "Balance integrity check failed",
          "account_id: " ++ intStr req.accountId⟩)
      else if account.balance < req.amount then
        (db, .error ⟨400, "Insufficient funds",
          "account_id: " ++ intStr req.accountId ++ ", balance: " ++ fmt6 account.balance ++
          ", requested: " ++ fmt6 req.amount⟩)
      else
        let newBalance := fsub account.balance req.amount
        let account' := { account with
          balance := newBalance
          balanceHash := CreateHMAC (fmtData newBalance req.accountId) s.secretKey }
        let txn : Transaction :=
          ⟨txId, some req.accountId, none, req.amount, "withdraw", "completed", now⟩
        ({ db with
            accounts := db.accounts.map fun a => if a.id == account.id then account' else a
            transactions := db.transactions ++ [txn] },
         .ok txId)

/-- `transactionService.ProcessTransfer`.  The second component records the
account ids queried (`tx.Where(...).First(...)`), in program order: the
source account is queried first, then — if the operation gets that far — the
destination account. -/
def ProcessTransfer (s : TransactionService) (db : DB) (req : TransferRequest)
    (claims : Claims) (txId now : String) : (DB × Except AppError String) × List ℤ :=
  if req.amount ≤ 0 then
    ((db, .error ⟨400, "Invalid transfer amount", "Amount must be positive"⟩), [])
  else if req.fromId = req.toId then
    ((db, .error ⟨400, "Invalid transfer",
      "Source and destination accounts must be different"⟩), [])
  else
    match db.accounts.find? (fun a => a.id == req.fromId && a.userId == claims.userId) with
    | none =>
      ((db, .error ⟨404, "Source account not found or access denied",
        "account_id: " ++ intStr req.fromId ++ ", user_id: " ++ intStr claims.userId⟩),
       [req.fromId])
    | some fromAccount =>
      if fromAccount.balanceHash ≠ CreateHMAC (fmtData fromAccount.balance req.fromId) s.secretKey then
        ((db, .error ⟨500, "Source account balance integrity check failed",
          "account_id: " ++ intStr req.fromId⟩), [req.fromId])
      else if fromAccount.balance < req.amount then
        ((db, .error ⟨400, "Insufficient funds in source account",
          "account_id: " ++ intStr req.fromId ++ ", balance: " ++ fmt6 fromAccount.balance ++
          ", requested: " ++ fmt6 req.amount⟩), [req.fromId])
      else
        match db.accounts.find? (fun a => a.id == req.toId) with
        | none =>
          ((db, .error ⟨404, "Destination account not found",
            "account_id: " ++ intStr req.toId⟩), [req.fromId, req.toId])
        | some toAccount =>
          if toAccount.balanceHash ≠ CreateHMAC (fmtData toAccount.balance req.toId) s.secretKey then
            ((db, .error ⟨500, "Destination account balance integrity check failed",
              "account_id: " ++ intStr req.toId⟩), [req.fromId, req.toId])
          else
            let newFromBalance := fsub fromAccount.balance req.amount
            let fromAccount' := { fromAccount with
              balance := newFromBalance
              balanceHash := CreateHMAC (fmtData newFromBalance req.fromId) s.secretKey }
            let accounts1 := db.accounts.map fun a => if a.id == fromAccount.id then fromAccount' else a
            let newToBalance := fadd toAccount.balance req.amount
            let toAccount' := { toAccount with
              balance := newToBalance
              balanceHash := CreateHMAC (fmtData newToBalance req.toId) s.secretKey }
            let accounts2 := accounts1.map fun a => if a.id == toAccount.id then toAccount' else a
            let txn : Transaction :=
              ⟨txId, some req.fromId, some req.toId, req.amount, "transfer", "completed", now⟩
            (({ db with accounts := accounts2, transactions := db.transactions ++ [txn] },
              .ok txId),
             [req.fromId, req.toId])

/-- The integrity loop of `accountService.GetAccounts`: first mismatching
account (in load order) yields the error. -/
def checkIntegrity (secretKey : String) : List Account → Option AppError
  | [] => none
  | acc :: rest =>
    if acc.balanceHash ≠ CreateHMAC (fmtData acc.balance acc.id) secretKey then
      some ⟨500, "Balance integrity check failed", "account_id: " ++ intStr acc.id⟩
    else checkIntegrity secretKey rest

/-- `accountService.GetAccounts`: all accounts of the user, each verified
before any is returned; a mismatch fails the whole call with no accounts. -/
def GetAccounts (s : AccountService) (db : DB) (userId : ℤ) : Except AppError (List Account) :=
  let accounts := db.accounts.filter (fun a => a.userId == userId)
  match checkIntegrity s.secretKey accounts with
  | some e => .error e
  | none => .ok accounts

/-- `authService.Register`.  `hashedPassword` stands for the bcrypt digest;
`nextUserId` and `nextAccountId` are the autoincremented row ids the store
assigns to the inserted user and account.  Note the source computes the
initial balance hash from `user.ID`, not from the account id. -/
def Register (s : AuthService) (db : DB) (username hashedPassword : String)
    (nextUserId nextAccountId : ℤ) (now : String) : DB × Except AppError Unit :=
  if db.users.any (fun u => u.username == username) then
    (db, .error ⟨400, "User already exists", "username: " ++ username⟩)
  else
    let user : User := ⟨nextUserId, username, hashedPassword, now⟩
    let initialHash := CalculateBalanceHash 0 nextUserId s.jwtKey
    let account : Account := ⟨nextAccountId, nextUserId, 0, initialHash, now⟩
    ({ db with users := db.users ++ [user], accounts := db.accounts ++ [account] },
     .ok ())

/-- The HS256 signature of `authService.Login`'s token:
`jwt.SigningMethodHS256` signs the token's signing input with
HMAC-SHA256 under `[]byte(s.jwtKey)` (base64url wrapping omitted). -/
def LoginSignature (s : AuthService) (signingInput : String) : List Nat :=
  hmacSHA256 (strBytes s.jwtKey) (strBytes signingInput)

/-! ## JSON serialization (`Handler.GetAccounts` → `c.JSON(accounts)`) -/

/-- JSON values, as far as the account serialization needs them. -/
inductive JsonValue
  | jint (i : ℤ)
  | jnum (q : ℚ)
  | jstr (s : String)
deriving DecidableEq

/-- The serialized form of `models.Account` under its JSON struct tags:
`id`, `user_id`, `balance`, `created_at`; `BalanceHash` carries the tag
`"-"` and is omitted. -/
def accountJson (a : Account) : List (String × JsonValue) :=
  [("id", .jint a.id), ("user_id", .jint a.userId),
   ("balance", .jnum a.balance), ("created_at", .jstr a.createdAt)]

/-- The success body of the `/api/accounts` endpoint: the serialized account
list. -/
def GetAccountsResponse (s : AccountService) (db : DB) (userId : ℤ) :
    Except AppError (List (List (String × JsonValue))) :=
  (GetAccounts s db userId).map (List.map accountJson)

/-- The balance the store holds for account `i` (first row with that id). -/
def balanceOf (db : DB) (i : ℤ) : Option ℚ :=
  (db.accounts.find? (fun a => a.id == i)).map Account.balance

/-- Two accounts that agree on every stored field except the integrity tag
(`BalanceHash`). -/
def sameExceptHash (a b : Account) : Prop :=
  a.id = b.id ∧ a.userId = b.userId ∧ a.balance = b.balance ∧ a.createdAt = b.createdAt

/-! ## Wiring (`cmd/main.go`) -/

/-- The three services as `main` constructs them. -/
structure App where
  transactionService : TransactionService
  authService : AuthService
  accountService : AccountService

/-- `main`'s wiring: the single `JWT_SECRET` value is handed to all three
service constructors. -/
def mainApp (jwtSecret : String) : App :=
  ⟨NewTransactionService jwtSecret, NewAuthService jwtSecret,
   NewAccountService jwtSecret⟩

/-! ## Helper lemmas -/

lemma pow2_pos (e : ℤ) : 0 < pow2 e := by
  unfold pow2
  split
  · exact_mod_cast Nat.pos_pow_of_pos _ (by norm_num)
  · apply one_div_pos.mpr
    exact_mod_cast Nat.pos_pow_of_pos _ (by norm_num)

lemma qfloor_nonneg {q : ℚ} (h : 0 ≤ q) : 0 ≤ qfloor q :=
  Int.fdiv_nonneg (Rat.num_nonneg.mpr h) (Int.natCast_nonneg _)

lemma rne_nonneg {x : ℚ} (h : 0 ≤ x) : 0 ≤ rne x := by
  have hf := qfloor_nonneg h
  simp only [rne]
  split
  · exact hf
  · split
    · omega
    · split
      · exact hf
      · omega

lemma roundB64_nonneg {q : ℚ} (h : 0 ≤ q) : 0 ≤ roundB64 q := by
  unfold roundB64
  split
  · norm_num
  · have hneg : ¬ q < 0 := not_lt.mpr h
    simp only [if_neg hneg, one_mul]
    apply mul_nonneg
    · exact_mod_cast rne_nonneg (div_nonneg h (le_of_lt (pow2_pos _)))
    · exact le_of_lt (pow2_pos _)

lemma fadd_nonneg {x y : ℚ} (hx : 0 ≤ x) (hy : 0 ≤ y) : 0 ≤ fadd x y :=
  roundB64_nonneg (add_nonneg hx hy)

lemma fsub_nonneg {x y : ℚ} (h : y ≤ x) : 0 ≤ fsub x y :=
  roundB64_nonneg (by simpa using h)

/-- The deposit/withdraw lookup predicate forces the found account's id and
owner. -/
lemma find?_ids {l : List Account} {i u : ℤ} {acc : Account}
    (h : l.find? (fun a => a.id == i && a.userId == u) = some acc) :
    acc.id = i ∧ acc.userId = u := by
  have hp := List.find?_some h
  simp only [Bool.and_eq_true, beq_iff_eq] at hp
  exact hp

lemma find?_id {l : List Account} {i : ℤ} {acc : Account}
    (h : l.find? (fun a => a.id == i) = some acc) : acc.id = i := by
  have hp := List.find?_some h
  simpa using hp

/-- Deposit, integrity-failure path. -/
lemma deposit_integrity_eq (s : TransactionService) (db : DB) (req : TransactionRequest)
    (claims : Claims) (txId now : String) (acc : Account)
    (hamt : 0 < req.amount)
    (hfind : db.accounts.find? (fun a => a.id == req.accountId && a.userId == claims.userId) = some acc)
    (hbad : acc.balanceHash ≠ CreateHMAC (fmtData acc.balance req.accountId) s.secretKey) :
    ProcessDeposit s db req claims txId now =
      (db, .error ⟨500, "Balance integrity check failed",
        "account_id: " ++ intStr req.accountId⟩) := by
  simp only [ProcessDeposit, if_neg (not_le.mpr hamt), hfind, if_pos hbad]

/-- Deposit, success path. -/
lemma deposit_success_eq (s : TransactionService) (db : DB) (req : TransactionRequest)
    (claims : Claims) (txId now : String) (acc : Account)
    (hamt : 0 < req.amount)
    (hfind : db.accounts.find? (fun a => a.id == req.accountId && a.userId == claims.userId) = some acc)
    (hok : acc.balanceHash = CreateHMAC (fmtData acc.balance req.accountId) s.secretKey) :
    ProcessDeposit s db req claims txId now =
      ({ db with
          accounts := db.accounts.map fun a =>
            if a.id == acc.id then
              { acc with
                balance := fadd acc.balance req.amount
                balanceHash := CreateHMAC (fmtData (fadd acc.balance req.amount) req.accountId) s.secretKey }
            else a
          transactions := db.transactions ++
            [⟨txId, none, some req.accountId, req.amount, "deposit", "completed", now⟩] },
       .ok txId) := by
  simp only [ProcessDeposit, if_neg (not_le.mpr hamt), hfind, if_neg (not_not_intro hok)]

/-- Withdraw, integrity-failure path. -/
lemma withdraw_integrity_eq (s : TransactionService) (db : DB) (req : TransactionRequest)
    (claims : Claims) (txId now : String) (acc : Account)
    (hamt : 0 < req.amount)
    (hfind : db.accounts.find? (fun a => a.id == req.accountId && a.userId == claims.userId) = some acc)
    (hbad : acc.balanceHash ≠ CreateHMAC (fmtData acc.balance req.accountId) s.secretKey) :
    ProcessWithdraw s db req claims txId now =
      (db, .error ⟨500, "Balance integrity check failed",
        "account_id: " ++ intStr req.accountId⟩) := by
  simp only [ProcessWithdraw, if_neg (not_le.mpr hamt), hfind, if_pos hbad]

/-- Withdraw, insufficient-funds path: the tag check passes, the balance is
short, the operation fails before any mutation. -/
lemma withdraw_insufficient_eq (s : TransactionService) (db : DB) (req : TransactionRequest)
    (claims : Claims) (txId now : String) (acc : Account)
    (hamt : 0 < req.amount)
    (hfind : db.accounts.find? (fun a => a.id == req.accountId && a.userId == claims.userId) = some acc)
    (hok : acc.balanceHash = CreateHMAC (fmtData acc.balance req.accountId) s.secretKey)
    (hshort : acc.balance < req.amount) :
    ProcessWithdraw s db req claims txId now =
      (db, .error ⟨400, "Insufficient funds",
        "account_id: " ++ intStr req.accountId ++ ", balance: " ++ fmt6 acc.balance ++
        ", requested: " ++ fmt6 req.amount⟩) := by
  simp only [ProcessWithdraw, if_neg (not_le.mpr hamt), hfind, if_neg (not_not_intro hok),
    if_pos hshort]

/-- Withdraw, success path. -/
lemma withdraw_success_eq (s : TransactionService) (db : DB) (req : TransactionRequest)
    (claims : Claims) (txId now : String) (acc : Account)
    (hamt : 0 < req.amount)
    (hfind : db.accounts.find? (fun a => a.id == req.accountId && a.userId == claims.userId) = some acc)
    (hok : acc.balanceHash = CreateHMAC (fmtData acc.balance req.accountId) s.secretKey)
    (hfunds : req.amount ≤ acc.balance) :
    ProcessWithdraw s db req claims txId now =
      ({ db with
          accounts := db.accounts.map fun a =>
            if a.id == acc.id then
              { acc with
                balance := fsub acc.balance req.amount
                balanceHash := CreateHMAC (fmtData (fsub acc.balance req.amount) req.accountId) s.secretKey }
            else a
          transactions := db.transactions ++
            [⟨txId, some req.accountId, none, req.amount, "withdraw", "completed", now⟩] },
       .ok txId) := by
  simp only [ProcessWithdraw, if_neg (not_le.mpr hamt), hfind, if_neg (not_not_intro hok),
    if_neg (not_lt.mpr hfunds)]

/-- Transfer, source-integrity-failure path. -/
lemma transfer_src_integrity_eq (s : TransactionService) (db : DB) (req : TransferRequest)
    (claims : Claims) (txId now : String) (fromAcc : Account)
    (hamt : 0 < req.amount)
    (hne : req.fromId ≠ req.toId)
    (hfrom : db.accounts.find? (fun a => a.id == req.fromId && a.userId == claims.userId) = some fromAcc)
    (hbad : fromAcc.balanceHash ≠ CreateHMAC (fmtData fromAcc.balance req.fromId) s.secretKey) :
    ProcessTransfer s db req claims txId now =
      ((db, .error ⟨500, "Source account balance integrity check failed",
        "account_id: " ++ intStr req.fromId⟩), [req.fromId]) := by
  simp only [ProcessTransfer, if_neg (not_le.mpr hamt), if_neg hne, hfrom, if_pos hbad]

/-- Transfer, source-insufficient-funds path. -/
lemma transfer_insufficient_eq (s : TransactionService) (db : DB) (req : TransferRequest)
    (claims : Claims) (txId now : String) (fromAcc : Account)
    (hamt : 0 < req.amount)
    (hne : req.fromId ≠ req.toId)
    (hfrom : db.accounts.find? (fun a => a.id == req.fromId && a.userId == claims.userId) = some fromAcc)
    (hok : fromAcc.balanceHash = CreateHMAC (fmtData fromAcc.balance req.fromId) s.secretKey)
    (hshort : fromAcc.balance < req.amount) :
    ProcessTransfer s db req claims txId now =
      ((db, .error ⟨400, "Insufficient funds in source account",
        "account_id: " ++ intStr req.fromId ++ ", balance: " ++ fmt6 fromAcc.balance ++
        ", requested: " ++ fmt6 req.amount⟩), [req.fromId]) := by
  simp only [ProcessTransfer, if_neg (not_le.mpr hamt), if_neg hne, hfrom,
    if_neg (not_not_intro hok), if_pos hshort]

/-- Transfer, destination-integrity-failure path. -/
lemma transfer_dst_integrity_eq (s : TransactionService) (db : DB) (req : TransferRequest)
    (claims : Claims) (txId now : String) (fromAcc toAcc : Account)
    (hamt : 0 < req.amount)
    (hne : req.fromId ≠ req.toId)
    (hfrom : db.accounts.find? (fun a => a.id == req.fromId && a.userId == claims.userId) = some fromAcc)
    (hok : fromAcc.balanceHash = CreateHMAC (fmtData fromAcc.balance req.fromId) s.secretKey)
    (hfunds : req.amount ≤ fromAcc.balance)
    (hto : db.accounts.find? (fun a => a.id == req.toId) = some toAcc)
    (hbad : toAcc.balanceHash ≠ CreateHMAC (fmtData toAcc.balance req.toId) s.secretKey) :
    ProcessTransfer s db req claims txId now =
      ((db, .error ⟨500, "Destination account balance integrity check failed",
        "account_id: " ++ intStr req.toId⟩), [req.fromId, req.toId]) := by
  simp only [ProcessTransfer, if_neg (not_le.mpr hamt), if_neg hne, hfrom,
    if_neg (not_not_intro hok), if_neg (not_lt.mpr hfunds), hto, if_pos hbad]

/-- Transfer, success path. -/
lemma transfer_success_eq (s : TransactionService) (db : DB) (req : TransferRequest)
    (claims : Claims) (txId now : String) (fromAcc toAcc : Account)
    (hamt : 0 < req.amount)
    (hne : req.fromId ≠ req.toId)
    (hfrom : db.accounts.find? (fun a => a.id == req.fromId && a.userId == claims.userId) = some fromAcc)
    (hokf : fromAcc.balanceHash = CreateHMAC (fmtData fromAcc.balance req.fromId) s.secretKey)
    (hfunds : req.amount ≤ fromAcc.balance)
    (hto : db.accounts.find? (fun a => a.id == req.toId) = some toAcc)
    (hokt : toAcc.balanceHash = CreateHMAC (fmtData toAcc.balance req.toId) s.secretKey) :
    ProcessTransfer s db req claims txId now =
      (({ db with
          accounts :=
            (db.accounts.map fun a =>
              if a.id == fromAcc.id then
                { fromAcc with
                  balance := fsub fromAcc.balance req.amount
                  balanceHash := CreateHMAC (fmtData (fsub fromAcc.balance req.amount) req.fromId) s.secretKey }
              else a).map fun a =>
              if a.id == toAcc.id then
                { toAcc with
                  balance := fadd toAcc.balance req.amount
                  balanceHash := CreateHMAC (fmtData (fadd toAcc.balance req.amount) req.toId) s.secretKey }
              else a
          transactions := db.transactions ++
            [⟨txId, some req.fromId, some req.toId, req.amount, "transfer", "completed", now⟩] },
        .ok txId), [req.fromId, req.toId]) := by
  simp only [ProcessTransfer, if_neg (not_le.mpr hamt), if_neg hne, hfrom,
    if_neg (not_not_intro hokf), if_neg (not_lt.mpr hfunds), hto, if_neg (not_not_intro hokt)]

lemma deposit_invalid_eq (s : TransactionService) (db : DB) (req : TransactionRequest)
    (claims : Claims) (txId now : String) (hamt : req.amount ≤ 0) :
    ProcessDeposit s db req claims txId now =
      (db, .error ⟨400, "Invalid deposit amount", "Amount must be positive"⟩) := by
  simp only [ProcessDeposit, if_pos hamt]

lemma deposit_notfound_eq (s : TransactionService) (db : DB) (req : TransactionRequest)
    (claims : Claims) (txId now : String) (hamt : 0 < req.amount)
    (hfind : db.accounts.find? (fun a => a.id == req.accountId && a.userId == claims.userId) = none) :
    ProcessDeposit s db req claims txId now =
      (db, .error ⟨404, "Account not found or access denied",
        "account_id: " ++ intStr req.accountId ++ ", user_id: " ++ intStr claims.userId⟩) := by
  simp only [ProcessDeposit, if_neg (not_le.mpr hamt), hfind]

lemma withdraw_invalid_eq (s : TransactionService) (db : DB) (req : TransactionRequest)
    (claims : Claims) (txId now : String) (hamt : req.amount ≤ 0) :
    ProcessWithdraw s db req claims txId now =
      (db, .error ⟨400, "Invalid withdrawal amount", "Amount must be positive"⟩) := by
  simp only [ProcessWithdraw, if_pos hamt]

lemma withdraw_notfound_eq (s : TransactionService) (db : DB) (req : TransactionRequest)
    (claims : Claims) (txId now : String) (hamt : 0 < req.amount)
    (hfind : db.accounts.find? (fun a => a.id == req.accountId && a.userId == claims.userId) = none) :
    ProcessWithdraw s db req claims txId now =
      (db, .error ⟨404, "Account not found or access denied",
        "account_id: " ++ intStr req.accountId ++ ", user_id: " ++ intStr claims.userId⟩) := by
  simp only [ProcessWithdraw, if_neg (not_le.mpr hamt), hfind]

lemma transfer_invalid_eq (s : TransactionService) (db : DB) (req : TransferRequest)
    (claims : Claims) (txId now : String) (hamt : req.amount ≤ 0) :
    ProcessTransfer s db req claims txId now =
      ((db, .error ⟨400, "Invalid transfer amount", "Amount must be positive"⟩), []) := by
  simp only [ProcessTransfer, if_pos hamt]

lemma transfer_same_eq (s : TransactionService) (db : DB) (req : TransferRequest)
    (claims : Claims) (txId now : String) (hamt : 0 < req.amount)
    (hsame : req.fromId = req.toId) :
    ProcessTransfer s db req claims txId now =
      ((db, .error ⟨400, "Invalid transfer",
        "Source and destination accounts must be different"⟩), []) := by
  simp only [ProcessTransfer, if_neg (not_le.mpr hamt), if_pos hsame]

lemma transfer_src_notfound_eq (s : TransactionService) (db : DB) (req : TransferRequest)
    (claims : Claims) (txId now : String) (hamt : 0 < req.amount)
    (hne : req.fromId ≠ req.toId)
    (hfrom : db.accounts.find? (fun a => a.id == req.fromId && a.userId == claims.userId) = none) :
    ProcessTransfer s db req claims txId now =
      ((db, .error ⟨404, "Source account not found or access denied",
        "account_id: " ++ intStr req.fromId ++ ", user_id: " ++ intStr claims.userId⟩),
       [req.fromId]) := by
  simp only [ProcessTransfer, if_neg (not_le.mpr hamt), if_neg hne, hfrom]

lemma transfer_dst_notfound_eq (s : TransactionService) (db : DB) (req : TransferRequest)
    (claims : Claims) (txId now : String) (fromAcc : Account) (hamt : 0 < req.amount)
    (hne : req.fromId ≠ req.toId)
    (hfrom : db.accounts.find? (fun a => a.id == req.fromId && a.userId == claims.userId) = some fromAcc)
    (hok : fromAcc.balanceHash = CreateHMAC (fmtData fromAcc.balance req.fromId) s.secretKey)
    (hfunds : req.amount ≤ fromAcc.balance)
    (hto : db.accounts.find? (fun a => a.id == req.toId) = none) :
    ProcessTransfer s db req claims txId now =
      ((db, .error ⟨404, "Destination account not found",
        "account_id: " ++ intStr req.toId⟩), [req.fromId, req.toId]) := by
  simp only [ProcessTransfer, if_neg (not_le.mpr hamt), if_neg hne, hfrom,
    if_neg (not_not_intro hok), if_neg (not_lt.mpr hfunds), hto]

/-- `checkIntegrity` passes when every account in the list has a valid tag. -/
lemma checkIntegrity_eq_none (key : String) (l : List Account)
    (hvalid : ∀ a ∈ l, a.balanceHash = CreateHMAC (fmtData a.balance a.id) key) :
    checkIntegrity key l = none := by
  induction l with
  | nil => rfl
  | cons a t ih =>
    unfold checkIntegrity
    rw [if_neg (not_not_intro (hvalid a (List.mem_cons_self a t)))]
    exact ih fun b hb => hvalid b (List.mem_cons_of_mem a hb)

/-- `checkIntegrity` fails with an integrity error when some account in the
list has an invalid tag. -/
lemma checkIntegrity_eq_some (key : String) (l : List Account)
    (hbad : ∃ a ∈ l, a.balanceHash ≠ CreateHMAC (fmtData a.balance a.id) key) :
    ∃ e, checkIntegrity key l = some e ∧ e.isIntegrityError = true := by
  induction l with
  | nil => simp at hbad
  | cons a t ih =>
    by_cases ha : a.balanceHash ≠ CreateHMAC (fmtData a.balance a.id) key
    · exact ⟨⟨500, "Balance integrity check failed", "account_id: " ++ intStr a.id⟩,
        by unfold checkIntegrity; rw [if_pos ha], rfl⟩
    · rcases hbad with ⟨b, hb, hbbad⟩
      have hbt : b ∈ t := by
        cases List.mem_cons.mp hb with
        | inl h => exact absurd (h ▸ hbbad) ha
        | inr h => exact h
      rcases ih ⟨b, hbt, hbbad⟩ with ⟨e, he, hint⟩
      exact ⟨e, by unfold checkIntegrity; rw [if_neg ha]; exact he, hint⟩

/-- Every error `checkIntegrity` produces is an integrity error. -/
lemma checkIntegrity_isIntegrity (key : String) (l : List Account) (e : AppError)
    (h : checkIntegrity key l = some e) : e.isIntegrityError = true := by
  induction l with
  | nil => simp [checkIntegrity] at h
  | cons a t ih =>
    unfold checkIntegrity at h
    split at h
    · cases h; rfl
    · exact ih h

/-- When every stored tag in the store is valid, a looked-up account's tag
matches the recomputation against the request's account id. -/
lemma hok_of_valid {db : DB} {i u : ℤ} {acc : Account} (key : String)
    (hvalid : ∀ a ∈ db.accounts, a.balanceHash = CreateHMAC (fmtData a.balance a.id) key)
    (hfind : db.accounts.find? (fun a => a.id == i && a.userId == u) = some acc) :
    acc.balanceHash = CreateHMAC (fmtData acc.balance i) key := by
  have hmem := List.mem_of_find?_eq_some hfind
  have hid := (find?_ids hfind).1
  rw [← hid]
  exact hvalid acc hmem

lemma hok_of_valid_id {db : DB} {i : ℤ} {acc : Account} (key : String)
    (hvalid : ∀ a ∈ db.accounts, a.balanceHash = CreateHMAC (fmtData a.balance a.id) key)
    (hfind : db.accounts.find? (fun a => a.id == i) = some acc) :
    acc.balanceHash = CreateHMAC (fmtData acc.balance i) key := by
  have hmem := List.mem_of_find?_eq_some hfind
  have hid := find?_id hfind
  rw [← hid]
  exact hvalid acc hmem

/-- Valid tags everywhere: a deposit never raises an integrity error. -/
lemma deposit_no_integrity (s : TransactionService) (db : DB) (req : TransactionRequest)
    (claims : Claims) (txId now : String)
    (hvalid : ∀ a ∈ db.accounts, a.balanceHash = CreateHMAC (fmtData a.balance a.id) s.secretKey) :
    ∀ e, (ProcessDeposit s db req claims txId now).2 = .error e → e.isIntegrityError = false := by
  intro e he
  rcases le_or_lt req.amount 0 with hamt | hamt
  · rw [deposit_invalid_eq s db req claims txId now hamt] at he
    cases he; rfl
  · cases hfind : db.accounts.find? (fun a => a.id == req.accountId && a.userId == claims.userId) with
    | none =>
      rw [deposit_notfound_eq s db req claims txId now hamt hfind] at he
      cases he; rfl
    | some acc =>
      rw [deposit_success_eq s db req claims txId now acc hamt hfind
        (hok_of_valid s.secretKey hvalid hfind)] at he
      simp at he

/-- Valid tags everywhere: a withdrawal never raises an integrity error. -/
lemma withdraw_no_integrity (s : TransactionService) (db : DB) (req : TransactionRequest)
    (claims : Claims) (txId now : String)
    (hvalid : ∀ a ∈ db.accounts, a.balanceHash = CreateHMAC (fmtData a.balance a.id) s.secretKey) :
    ∀ e, (ProcessWithdraw s db req claims txId now).2 = .error e → e.isIntegrityError = false := by
  intro e he
  rcases le_or_lt req.amount 0 with hamt | hamt
  · rw [withdraw_invalid_eq s db req claims txId now hamt] at he
    cases he; rfl
  · cases hfind : db.accounts.find? (fun a => a.id == req.accountId && a.userId == claims.userId) with
    | none =>
      rw [withdraw_notfound_eq s db req claims txId now hamt hfind] at he
      cases he; rfl
    | some acc =>
      have hok := hok_of_valid s.secretKey hvalid hfind
      rcases lt_or_le acc.balance req.amount with hshort | hfunds
      · rw [withdraw_insufficient_eq s db req claims txId now acc hamt hfind hok hshort] at he
        cases he; rfl
      · rw [withdraw_success_eq s db req claims txId now acc hamt hfind hok hfunds] at he
        simp at he

/-- Valid tags everywhere: a transfer never raises an integrity error. -/
lemma transfer_no_integrity (s : TransactionService) (db : DB) (req : TransferRequest)
    (claims : Claims) (txId now : String)
    (hvalid : ∀ a ∈ db.accounts, a.balanceHash = CreateHMAC (fmtData a.balance a.id) s.secretKey) :
    ∀ e, (ProcessTransfer s db req claims txId now).1.2 = .error e → e.isIntegrityError = false := by
  intro e he
  rcases le_or_lt req.amount 0 with hamt | hamt
  · rw [transfer_invalid_eq s db req claims txId now hamt] at he
    cases he; rfl
  · by_cases hsame : req.fromId = req.toId
    · rw [transfer_same_eq s db req claims txId now hamt hsame] at he
      cases he; rfl
    · cases hfrom : db.accounts.find? (fun a => a.id == req.fromId && a.userId == claims.userId) with
      | none =>
        rw [transfer_src_notfound_eq s db req claims txId now hamt hsame hfrom] at he
        cases he; rfl
      | some fromAcc =>
        have hokf := hok_of_valid s.secretKey hvalid hfrom
        rcases lt_or_le fromAcc.balance req.amount with hshort | hfunds
        · rw [transfer_insufficient_eq s db req claims txId now fromAcc hamt hsame hfrom hokf hshort] at he
          cases he; rfl
        · cases hto : db.accounts.find? (fun a => a.id == req.toId) with
          | none =>
            rw [transfer_dst_notfound_eq s db req claims txId now fromAcc hamt hsame hfrom hokf hfunds hto] at he
            cases he; rfl
          | some toAcc =>
            rw [transfer_success_eq s db req claims txId now fromAcc toAcc hamt hsame hfrom hokf hfunds hto
              (hok_of_valid_id s.secretKey hvalid hto)] at he
            simp at he

/-- GetAccounts, all-valid path. -/
lemma getAccounts_ok_eq (s : AccountService) (db : DB) (userId : ℤ)
    (hvalid : ∀ a ∈ db.accounts.filter (fun x => x.userId == userId),
      a.balanceHash = CreateHMAC (fmtData a.balance a.id) s.secretKey) :
    GetAccounts s db userId = .ok (db.accounts.filter (fun x => x.userId == userId)) := by
  simp only [GetAccounts]
  rw [checkIntegrity_eq_none _ _ hvalid]

/-- GetAccounts, invalid-tag path: a single mismatching owned account fails
the whole call with an integrity error. -/
lemma getAccounts_error_of_bad (s : AccountService) (db : DB) (userId : ℤ)
    (hbad : ∃ a ∈ db.accounts.filter (fun x => x.userId == userId),
      a.balanceHash ≠ CreateHMAC (fmtData a.balance a.id) s.secretKey) :
    ∃ e, GetAccounts s db userId = .error e ∧ e.isIntegrityError = true := by
  rcases checkIntegrity_eq_some s.secretKey _ hbad with ⟨e, he, hint⟩
  exact ⟨e, by simp only [GetAccounts]; rw [he], hint⟩

/-- A balance-and-tag update keyed on `u.id` never changes an account id. -/
lemma upd_id (u : Account) (newBal : ℚ) (newHash : String) (a : Account) :
    (if a.id == u.id then { u with balance := newBal, balanceHash := newHash } else a).id = a.id := by
  split
  · next h => exact (beq_iff_eq.mp h).symm
  · rfl

/-- Lookup by id commutes with an id-preserving transformation of the rows. -/
lemma find?_map_eq {l : List Account} {φ : Account → Account}
    (hid : ∀ a, (φ a).id = a.id) (i : ℤ) :
    (l.map φ).find? (fun a => a.id == i) = (l.find? (fun a => a.id == i)).map φ := by
  rw [List.find?_map]
  have : ((fun a : Account => a.id == i) ∘ φ) = fun a : Account => a.id == i := by
    funext a
    simp only [Function.comp, hid]
  rw [this]

/-- Membership in a balance-and-tag-updated account list: the element either
is one of the updated copies (with the new balance) or was there before. -/
lemma mem_upd {l : List Account} {u : Account} {nb : ℚ} {nh : String} {a' : Account}
    (h : a' ∈ l.map fun a => if a.id == u.id then { u with balance := nb, balanceHash := nh } else a) :
    a'.balance = nb ∨ a' ∈ l := by
  rcases List.mem_map.mp h with ⟨b, hb, rfl⟩
  split
  · exact Or.inl rfl
  · exact Or.inr hb

/-! ## Claims -/

/-- C1 (amended): every operation that loads an account whose stored tag
differs from the recomputed tag `Tag(balance, accountId, secret)` fails with
`IntegrityError` and performs no mutation (the store is returned unchanged);
conversely, when every stored tag equals its recomputed tag no operation
raises an `IntegrityError` — in particular a corruption of a stored balance
is detected exactly when it changes the recomputed tag, and a corruption
that leaves the 6-decimal `%f` rendering of the balance unchanged is not
detected (see the counterexample). -/
theorem c1_integrity (secret : String) (db : DB) (claims : Claims) (txId now : String) :
    (∀ (req : TransactionRequest) (acc : Account), 0 < req.amount →
      db.accounts.find? (fun a => a.id == req.accountId && a.userId == claims.userId) = some acc →
      acc.balanceHash ≠ CreateHMAC (fmtData acc.balance req.accountId) secret →
      ProcessDeposit ⟨secret⟩ db req claims txId now =
        (db, .error ⟨500, "Balance integrity check failed",
          "account_id: " ++ intStr req.accountId⟩)) ∧
    (∀ (req : TransactionRequest) (acc : Account), 0 < req.amount →
      db.accounts.find? (fun a => a.id == req.accountId && a.userId == claims.userId) = some acc →
      acc.balanceHash ≠ CreateHMAC (fmtData acc.balance req.accountId) secret →
      ProcessWithdraw ⟨secret⟩ db req claims txId now =
        (db, .error ⟨500, "Balance integrity check failed",
          "account_id: " ++ intStr req.accountId⟩)) ∧
    (∀ (req : TransferRequest) (fromAcc : Account), 0 < req.amount → req.fromId ≠ req.toId →
      db.accounts.find? (fun a => a.id == req.fromId && a.userId == claims.userId) = some fromAcc →
      fromAcc.balanceHash ≠ CreateHMAC (fmtData fromAcc.balance req.fromId) secret →
      ProcessTransfer ⟨secret⟩ db req claims txId now =
        ((db, .error ⟨500, "Source account balance integrity check failed",
          "account_id: " ++ intStr req.fromId⟩), [req.fromId])) ∧
    (∀ (req : TransferRequest) (fromAcc toAcc : Account), 0 < req.amount → req.fromId ≠ req.toId →
      db.accounts.find? (fun a => a.id == req.fromId && a.userId == claims.userId) = some fromAcc →
      fromAcc.balanceHash = CreateHMAC (fmtData fromAcc.balance req.fromId) secret →
      req.amount ≤ fromAcc.balance →
      db.accounts.find? (fun a => a.id == req.toId) = some toAcc →
      toAcc.balanceHash ≠ CreateHMAC (fmtData toAcc.balance req.toId) secret →
      ProcessTransfer ⟨secret⟩ db req claims txId now =
        ((db, .error ⟨500, "Destination account balance integrity check failed",
          "account_id: " ++ intStr req.toId⟩), [req.fromId, req.toId])) ∧
    (∀ userId : ℤ,
      (∃ a ∈ db.accounts.filter (fun x => x.userId == userId),
        a.balanceHash ≠ CreateHMAC (fmtData a.balance a.id) secret) →
      ∃ e, GetAccounts ⟨secret⟩ db userId = .error e ∧ e.isIntegrityError = true) ∧
    ((∀ a ∈ db.accounts, a.balanceHash = CreateHMAC (fmtData a.balance a.id) secret) →
      (∀ (req : TransactionRequest) e,
        (ProcessDeposit ⟨secret⟩ db req claims txId now).2 = .error e →
          e.isIntegrityError = false) ∧
      (∀ (req : TransactionRequest) e,
        (ProcessWithdraw ⟨secret⟩ db req claims txId now).2 = .error e →
          e.isIntegrityError = false) ∧
      (∀ (req : TransferRequest) e,
        (ProcessTransfer ⟨secret⟩ db req claims txId now).1.2 = .error e →
          e.isIntegrityError = false) ∧
      (∀ userId : ℤ, GetAccounts ⟨secret⟩ db userId =
        .ok (db.accounts.filter (fun x => x.userId == userId)))) := by
  refine ⟨?_, ?_, ?_, ?_, ?_, ?_⟩
  · exact fun req acc hamt hfind hbad =>
      deposit_integrity_eq ⟨secret⟩ db req claims txId now acc hamt hfind hbad
  · exact fun req acc hamt hfind hbad =>
      withdraw_integrity_eq ⟨secret⟩ db req claims txId now acc hamt hfind hbad
  · exact fun req fromAcc hamt hne hfrom hbad =>
      transfer_src_integrity_eq ⟨secret⟩ db req claims txId now fromAcc hamt hne hfrom hbad
  · exact fun req fromAcc toAcc hamt hne hfrom hokf hfunds hto hbad =>
      transfer_dst_integrity_eq ⟨secret⟩ db req claims txId now fromAcc toAcc hamt hne hfrom hokf hfunds hto hbad
  · exact fun userId hbad => getAccounts_error_of_bad ⟨secret⟩ db userId hbad
  · intro hvalid
    refine ⟨?_, ?_, ?_, ?_⟩
    · exact fun req e => deposit_no_integrity ⟨secret⟩ db req claims txId now hvalid e
    · exact fun req e => withdraw_no_integrity ⟨secret⟩ db req claims txId now hvalid e
    · exact fun req e => transfer_no_integrity ⟨secret⟩ db req claims txId now hvalid e
    · exact fun userId => getAccounts_ok_eq ⟨secret⟩ db userId
        fun a ha => hvalid a (List.mem_of_mem_filter ha)

set_option maxRecDepth 4000 in
/-- C1 counterexample: corrupting a stored balance of 100 to
100 + 7036874 / 2^46 (the `float64` nearest 100.0000001) without updating
the tag is NOT detected: the `%f` rendering is still `100.000000`, the
recomputed tag equals the stored one, and the next deposit succeeds instead
of failing with `IntegrityError`. -/
theorem c1_counterexample :
    (100 + 7036874 / 70368744177664 : ℚ) ≠ 100 ∧
    (ProcessDeposit ⟨"bankx-secret"⟩
      ⟨[], [⟨1, 7, 100 + 7036874 / 70368744177664,
             CreateHMAC (fmtData 100 1) "bankx-secret", "t0"⟩], []⟩
      ⟨1, 50⟩ ⟨7⟩ "tx-1" "t1").2 = .ok "tx-1" := by
  constructor
  · decide
  · have hfmt : fmtData (100 + 7036874 / 70368744177664 : ℚ) 1 = fmtData 100 1 := by decide
    have h := deposit_success_eq ⟨"bankx-secret"⟩
      ⟨[], [⟨1, 7, 100 + 7036874 / 70368744177664,
             CreateHMAC (fmtData 100 1) "bankx-secret", "t0"⟩], []⟩
      ⟨1, 50⟩ ⟨7⟩ "tx-1" "t1"
      ⟨1, 7, 100 + 7036874 / 70368744177664, CreateHMAC (fmtData 100 1) "bankx-secret", "t0"⟩
      (by norm_num) rfl
      (by show CreateHMAC (fmtData 100 1) "bankx-secret" =
            CreateHMAC (fmtData (100 + 7036874 / 70368744177664) 1) "bankx-secret"
          rw [hfmt])
    rw [h]

set_option maxRecDepth 4000 in
/-- C1 witness: a tag mismatch makes a deposit fail with `IntegrityError`
and leave the store unchanged; on a store whose tags are all valid,
`GetAccounts` succeeds. -/
theorem c1_witness :
    ProcessDeposit ⟨"bankx-secret"⟩ ⟨[], [⟨1, 7, 100, "tampered", "t0"⟩], []⟩
      ⟨1, 5⟩ ⟨7⟩ "tx-1" "t1" =
      (⟨[], [⟨1, 7, 100, "tampered", "t0"⟩], []⟩,
       .error ⟨500, "Balance integrity check failed", "account_id: " ++ intStr 1⟩) ∧
    GetAccounts ⟨"bankx-secret"⟩
      ⟨[], [⟨1, 7, 100, CreateHMAC (fmtData 100 1) "bankx-secret", "t0"⟩], []⟩ 7 =
      .ok [⟨1, 7, 100, CreateHMAC (fmtData 100 1) "bankx-secret", "t0"⟩] := by
  constructor
  · exact (c1_integrity "bankx-secret" ⟨[], [⟨1, 7, 100, "tampered", "t0"⟩], []⟩
      ⟨7⟩ "tx-1" "t1").1 ⟨1, 5⟩ ⟨1, 7, 100, "tampered", "t0"⟩
      (by norm_num) rfl (by decide)
  · have h := (c1_integrity "bankx-secret"
      ⟨[], [⟨1, 7, 100, CreateHMAC (fmtData 100 1) "bankx-secret", "t0"⟩], []⟩
      ⟨7⟩ "tx-1" "t1").2.2.2.2.2
      (by intro a ha
          have : a = ⟨1, 7, 100, CreateHMAC (fmtData 100 1) "bankx-secret", "t0"⟩ := by
            simpa using ha
          rw [this])
    exact h.2.2.2 7

/-- C2: a withdrawal from an owned account with a valid integrity tag whose
balance is strictly below the requested amount fails with
`InsufficientFundsError` before any mutation: the store is returned
unchanged (balance and tag untouched, no transaction row). -/
theorem c2_withdraw_insufficient (s : TransactionService) (db : DB)
    (req : TransactionRequest) (claims : Claims) (txId now : String) (acc : Account)
    (hamt : 0 < req.amount)
    (hfind : db.accounts.find? (fun a => a.id == req.accountId && a.userId == claims.userId) = some acc)
    (hok : acc.balanceHash = CreateHMAC (fmtData acc.balance req.accountId) s.secretKey)
    (hshort : acc.balance < req.amount) :
    ProcessWithdraw s db req claims txId now =
      (db, .error ⟨400, "Insufficient funds",
        "account_id: " ++ intStr req.accountId ++ ", balance: " ++ fmt6 acc.balance ++
        ", requested: " ++ fmt6 req.amount⟩) ∧
    (⟨400, "Insufficient funds",
      "account_id: " ++ intStr req.accountId ++ ", balance: " ++ fmt6 acc.balance ++
      ", requested: " ++ fmt6 req.amount⟩ : AppError).isInsufficientFundsError = true :=
  ⟨withdraw_insufficient_eq s db req claims txId now acc hamt hfind hok hshort, rfl⟩

/-- C2 witness: withdrawing 50 from an account holding 30 (the spec's
example 2). -/
theorem c2_witness :
    ProcessWithdraw ⟨"bankx-secret"⟩
      ⟨[], [⟨1, 7, 30, CreateHMAC (fmtData 30 1) "bankx-secret", "2024-01-01"⟩], []⟩
      ⟨1, 50⟩ ⟨7⟩ "tx-1" "2024-01-02" =
      (⟨[], [⟨1, 7, 30, CreateHMAC (fmtData 30 1) "bankx-secret", "2024-01-01"⟩], []⟩,
       .error ⟨400, "Insufficient funds",
         "account_id: " ++ intStr 1 ++ ", balance: " ++ fmt6 30 ++ ", requested: " ++ fmt6 50⟩) :=
  (c2_withdraw_insufficient ⟨"bankx-secret"⟩
    ⟨[], [⟨1, 7, 30, CreateHMAC (fmtData 30 1) "bankx-secret", "2024-01-01"⟩], []⟩
    ⟨1, 50⟩ ⟨7⟩ "tx-1" "2024-01-02"
    ⟨1, 7, 30, CreateHMAC (fmtData 30 1) "bankx-secret", "2024-01-01"⟩
    (by norm_num) rfl rfl (by norm_num)).1

/-- C3 (amended): for a committed transfer whose float64 debit and credit
are exact (no rounding, e.g. integer balances and amounts below 2^53), the
committed balances satisfy the exact conservation
`newFromBalance + newToBalance = fromBalance + toBalance`; when rounding
occurs the equality can fail (see the counterexample). -/
theorem c3_conservation (s : TransactionService) (db : DB) (req : TransferRequest)
    (claims : Claims) (txId now : String) (fromAcc toAcc : Account)
    (hamt : 0 < req.amount) (hne : req.fromId ≠ req.toId)
    (hfrom : db.accounts.find? (fun a => a.id == req.fromId && a.userId == claims.userId) = some fromAcc)
    (hokf : fromAcc.balanceHash = CreateHMAC (fmtData fromAcc.balance req.fromId) s.secretKey)
    (hfunds : req.amount ≤ fromAcc.balance)
    (hto : db.accounts.find? (fun a => a.id == req.toId) = some toAcc)
    (hokt : toAcc.balanceHash = CreateHMAC (fmtData toAcc.balance req.toId) s.secretKey)
    (hexact1 : fsub fromAcc.balance req.amount = fromAcc.balance - req.amount)
    (hexact2 : fadd toAcc.balance req.amount = toAcc.balance + req.amount) :
    ∃ db', ProcessTransfer s db req claims txId now = ((db', .ok txId), [req.fromId, req.toId]) ∧
      balanceOf db' req.fromId = some (fromAcc.balance - req.amount) ∧
      balanceOf db' req.toId = some (toAcc.balance + req.amount) ∧
      (fromAcc.balance - req.amount) + (toAcc.balance + req.amount) =
        fromAcc.balance + toAcc.balance := by
  have hfid : fromAcc.id = req.fromId := (find?_ids hfrom).1
  have htid : toAcc.id = req.toId := find?_id hto
  have hids : fromAcc.id ≠ toAcc.id := by rw [hfid, htid]; exact hne
  refine ⟨_, transfer_success_eq s db req claims txId now fromAcc toAcc
    hamt hne hfrom hokf hfunds hto hokt, ?_, ?_, by ring⟩
  · unfold balanceOf
    rw [find?_map_eq (upd_id toAcc (fadd toAcc.balance req.amount)
          (CreateHMAC (fmtData (fadd toAcc.balance req.amount) req.toId) s.secretKey)) req.fromId,
        find?_map_eq (upd_id fromAcc (fsub fromAcc.balance req.amount)
          (CreateHMAC (fmtData (fsub fromAcc.balance req.amount) req.fromId) s.secretKey)) req.fromId]
    obtain ⟨b, hb⟩ : ∃ b, db.accounts.find? (fun a => a.id == req.fromId) = some b := by
      have : (db.accounts.find? (fun a => a.id == req.fromId)).isSome :=
        List.find?_isSome.mpr ⟨fromAcc, List.mem_of_find?_eq_some hfrom, by simp [hfid]⟩
      exact Option.isSome_iff_exists.mp this
    have hbid : b.id = req.fromId := by simpa using List.find?_some hb
    rw [hb, Option.map_some', Option.map_some', Option.map_some',
      if_pos (beq_iff_eq.mpr (hbid.trans hfid.symm)),
      if_neg (by simpa using hids), hexact1]
  · unfold balanceOf
    rw [find?_map_eq (upd_id toAcc (fadd toAcc.balance req.amount)
          (CreateHMAC (fmtData (fadd toAcc.balance req.amount) req.toId) s.secretKey)) req.toId,
        find?_map_eq (upd_id fromAcc (fsub fromAcc.balance req.amount)
          (CreateHMAC (fmtData (fsub fromAcc.balance req.amount) req.fromId) s.secretKey)) req.toId]
    obtain ⟨b, hb⟩ : ∃ b, db.accounts.find? (fun a => a.id == req.toId) = some b := by
      have : (db.accounts.find? (fun a => a.id == req.toId)).isSome :=
        List.find?_isSome.mpr ⟨toAcc, List.mem_of_find?_eq_some hto, by simp [htid]⟩
      exact Option.isSome_iff_exists.mp this
    have hbid : b.id = req.toId := by simpa using List.find?_some hb
    rw [hb, Option.map_some', Option.map_some', Option.map_some',
      if_neg (show ¬ (b.id == fromAcc.id) = true by
        simp only [beq_iff_eq, hbid, hfid]
        exact fun h => hne h.symm),
      if_pos (beq_iff_eq.mpr (hbid.trans htid.symm)), hexact2]

set_option maxRecDepth 4000 in
/-- C3 counterexample: transferring 1 from a (validly tagged) account with
balance 10^16 to one with balance 1 commits, but the committed balances are
10^16 and 2 (the float64 debit `10^16 - 1` rounds back to `10^16`), so
`newFromBalance + newToBalance = 10^16 + 2` differs from
`fromBalance + toBalance = 10^16 + 1` — in exact arithmetic and in float64
arithmetic alike. -/
theorem c3_counterexample :
    (ProcessTransfer ⟨"bankx-secret"⟩
      ⟨[], [⟨1, 7, 10000000000000000, CreateHMAC (fmtData 10000000000000000 1) "bankx-secret", "t0"⟩,
            ⟨2, 9, 1, CreateHMAC (fmtData 1 2) "bankx-secret", "t0"⟩], []⟩
      ⟨1, 2, 1⟩ ⟨7⟩ "tx-1" "t1").1.2 = .ok "tx-1" ∧
    (ProcessTransfer ⟨"bankx-secret"⟩
      ⟨[], [⟨1, 7, 10000000000000000, CreateHMAC (fmtData 10000000000000000 1) "bankx-secret", "t0"⟩,
            ⟨2, 9, 1, CreateHMAC (fmtData 1 2) "bankx-secret", "t0"⟩], []⟩
      ⟨1, 2, 1⟩ ⟨7⟩ "tx-1" "t1").1.1.accounts.map Account.balance = [10000000000000000, 2] ∧
    ((10000000000000000 : ℚ) + 2 ≠ 10000000000000000 + 1) ∧
    fadd 10000000000000000 2 ≠ fadd 10000000000000000 1 := by
  have h := transfer_success_eq ⟨"bankx-secret"⟩
    ⟨[], [⟨1, 7, 10000000000000000, CreateHMAC (fmtData 10000000000000000 1) "bankx-secret", "t0"⟩,
          ⟨2, 9, 1, CreateHMAC (fmtData 1 2) "bankx-secret", "t0"⟩], []⟩
    ⟨1, 2, 1⟩ ⟨7⟩ "tx-1" "t1"
    ⟨1, 7, 10000000000000000, CreateHMAC (fmtData 10000000000000000 1) "bankx-secret", "t0"⟩
    ⟨2, 9, 1, CreateHMAC (fmtData 1 2) "bankx-secret", "t0"⟩
    (by norm_num) (by decide) rfl rfl (by norm_num) rfl rfl
  refine ⟨?_, ?_, by norm_num, by decide⟩
  · rw [h]
  · rw [h]
    decide

set_option maxRecDepth 4000 in
/-- C3 witness: transferring 40 from balance 100 to balance 10 (the spec's
example 3) commits with balances 60 and 50 and exact conservation. -/
theorem c3_witness :
    ∃ db', ProcessTransfer ⟨"bankx-secret"⟩
      ⟨[], [⟨1, 7, 100, CreateHMAC (fmtData 100 1) "bankx-secret", "t0"⟩,
            ⟨2, 9, 10, CreateHMAC (fmtData 10 2) "bankx-secret", "t0"⟩], []⟩
      ⟨1, 2, 40⟩ ⟨7⟩ "tx-1" "t1" = ((db', .ok "tx-1"), [1, 2]) ∧
      balanceOf db' 1 = some (100 - 40) ∧
      balanceOf db' 2 = some (10 + 40) ∧
      ((100 : ℚ) - 40) + (10 + 40) = 100 + 10 :=
  c3_conservation ⟨"bankx-secret"⟩
    ⟨[], [⟨1, 7, 100, CreateHMAC (fmtData 100 1) "bankx-secret", "t0"⟩,
          ⟨2, 9, 10, CreateHMAC (fmtData 10 2) "bankx-secret", "t0"⟩], []⟩
    ⟨1, 2, 40⟩ ⟨7⟩ "tx-1" "t1"
    ⟨1, 7, 100, CreateHMAC (fmtData 100 1) "bankx-secret", "t0"⟩
    ⟨2, 9, 10, CreateHMAC (fmtData 10 2) "bankx-secret", "t0"⟩
    (by norm_num) (by decide) rfl rfl (by norm_num) rfl rfl
    (by decide) (by decide)

/-- C5: a deposit of a positive amount into an owned account with a valid tag
commits `newBalance = balance + amount` (in `float64` arithmetic, `fadd`),
stores `newTag = Tag(newBalance, accountId, secret)`, appends exactly one
`deposit` transaction row (`toAccountId` set, `fromAccountId` null, status
`completed`, the deposited amount) and returns the new transaction id. -/
theorem c5_deposit_success (s : TransactionService) (db : DB)
    (req : TransactionRequest) (claims : Claims) (txId now : String) (acc : Account)
    (hamt : 0 < req.amount)
    (hfind : db.accounts.find? (fun a => a.id == req.accountId && a.userId == claims.userId) = some acc)
    (hok : acc.balanceHash = CreateHMAC (fmtData acc.balance req.accountId) s.secretKey) :
    ProcessDeposit s db req claims txId now =
      ({ db with
          accounts := db.accounts.map fun a =>
            if a.id == acc.id then
              { acc with
                balance := fadd acc.balance req.amount
                balanceHash := CreateHMAC (fmtData (fadd acc.balance req.amount) req.accountId) s.secretKey }
            else a
          transactions := db.transactions ++
            [⟨txId, none, some req.accountId, req.amount, "deposit", "completed", now⟩] },
       .ok txId) :=
  deposit_success_eq s db req claims txId now acc hamt hfind hok

/-- C5 witness: depositing 100 into an account holding 0 (the spec's
example 1). -/
theorem c5_witness :
    ProcessDeposit ⟨"bankx-secret"⟩
      ⟨[], [⟨1, 7, 0, CreateHMAC (fmtData 0 1) "bankx-secret", "2024-01-01"⟩], []⟩
      ⟨1, 100⟩ ⟨7⟩ "tx-1" "2024-01-02" =
      (⟨[], [⟨1, 7, fadd 0 100, CreateHMAC (fmtData (fadd 0 100) 1) "bankx-secret", "2024-01-01"⟩],
        [⟨"tx-1", none, some 1, 100, "deposit", "completed", "2024-01-02"⟩]⟩,
       .ok "tx-1") := by
  have h := c5_deposit_success ⟨"bankx-secret"⟩
    ⟨[], [⟨1, 7, 0, CreateHMAC (fmtData 0 1) "bankx-secret", "2024-01-01"⟩], []⟩
    ⟨1, 100⟩ ⟨7⟩ "tx-1" "2024-01-02"
    ⟨1, 7, 0, CreateHMAC (fmtData 0 1) "bankx-secret", "2024-01-01"⟩
    (by norm_num) rfl rfl
  exact h

set_option maxRecDepth 4000 in
/-- C4 (code bug): `Register` computes the initial balance hash from the
USER id, not from the id of the newly created account.  When the accounts
table assigns an account id different from the user id (here: user id 1,
account id 2), the fresh, untampered account is created with a tag that
fails verification, and the very next `GetAccounts` returns an
`IntegrityError`. -/
theorem c4_register_tag_bug :
    Register ⟨"bankx-secret"⟩ ⟨[], [], []⟩ "alice" "bcrypt-digest" 1 2 "t0" =
      (⟨[⟨1, "alice", "bcrypt-digest", "t0"⟩],
        [⟨2, 1, 0, CalculateBalanceHash 0 1 "bankx-secret", "t0"⟩], []⟩, .ok ()) ∧
    CalculateBalanceHash 0 1 "bankx-secret" ≠ CalculateBalanceHash 0 2 "bankx-secret" ∧
    GetAccounts ⟨"bankx-secret"⟩
      ⟨[⟨1, "alice", "bcrypt-digest", "t0"⟩],
       [⟨2, 1, 0, CalculateBalanceHash 0 1 "bankx-secret", "t0"⟩], []⟩ 1 =
      .error ⟨500, "Balance integrity check failed", "account_id: " ++ intStr 2⟩ := by
  refine ⟨rfl, by decide, ?_⟩
  decide

/-- C6: `GetAccounts` verifies the tag of every owned account before
returning anything: one mismatching owned account fails the entire call with
`IntegrityError` and no accounts are returned; when all owned tags match,
exactly the owned accounts are returned. -/
theorem c6_getaccounts_all_or_nothing (s : AccountService) (db : DB) (userId : ℤ) :
    ((∃ a ∈ db.accounts.filter (fun x => x.userId == userId),
        a.balanceHash ≠ CreateHMAC (fmtData a.balance a.id) s.secretKey) →
      ∃ e, GetAccounts s db userId = .error e ∧ e.isIntegrityError = true) ∧
    ((∀ a ∈ db.accounts.filter (fun x => x.userId == userId),
        a.balanceHash = CreateHMAC (fmtData a.balance a.id) s.secretKey) →
      GetAccounts s db userId = .ok (db.accounts.filter (fun x => x.userId == userId))) :=
  ⟨getAccounts_error_of_bad s db userId, getAccounts_ok_eq s db userId⟩

set_option maxRecDepth 4000 in
/-- C6 witness: a user owning a valid account and a tampered one gets an
integrity error; a user whose only account is valid gets exactly [that
account]. -/
theorem c6_witness :
    (∃ e, GetAccounts ⟨"bankx-secret"⟩
        ⟨[], [⟨1, 7, 30, CreateHMAC (fmtData 30 1) "bankx-secret", "t0"⟩,
              ⟨2, 7, 10, "tampered", "t0"⟩], []⟩ 7 = .error e ∧ e.isIntegrityError = true) ∧
    GetAccounts ⟨"bankx-secret"⟩
        ⟨[], [⟨1, 7, 30, CreateHMAC (fmtData 30 1) "bankx-secret", "t0"⟩], []⟩ 7 =
      .ok [⟨1, 7, 30, CreateHMAC (fmtData 30 1) "bankx-secret", "t0"⟩] := by
  constructor
  · apply (c6_getaccounts_all_or_nothing ⟨"bankx-secret"⟩
      ⟨[], [⟨1, 7, 30, CreateHMAC (fmtData 30 1) "bankx-secret", "t0"⟩,
            ⟨2, 7, 10, "tampered", "t0"⟩], []⟩ 7).1
    refine ⟨⟨2, 7, 10, "tampered", "t0"⟩, ?_, ?_⟩
    · simp
    · decide
  · have h := (c6_getaccounts_all_or_nothing ⟨"bankx-secret"⟩
      ⟨[], [⟨1, 7, 30, CreateHMAC (fmtData 30 1) "bankx-secret", "t0"⟩], []⟩ 7).2
    apply h
    intro a ha
    have : a = ⟨1, 7, 30, CreateHMAC (fmtData 30 1) "bankx-secret", "t0"⟩ := by
      simpa using ha
    rw [this]

/-- C7: starting from a store whose balances are all nonnegative, Deposit,
Withdraw and Transfer keep every balance nonnegative, and any overdraw
attempt (amount above the valid-tagged balance) fails with
`InsufficientFundsError` leaving the store unchanged. -/
theorem c7_no_negative_balances (s : TransactionService) (db : DB)
    (hpos : ∀ a ∈ db.accounts, 0 ≤ a.balance) :
    (∀ (req : TransactionRequest) (claims : Claims) (txId now : String),
      ∀ a' ∈ (ProcessDeposit s db req claims txId now).1.accounts, 0 ≤ a'.balance) ∧
    (∀ (req : TransactionRequest) (claims : Claims) (txId now : String),
      ∀ a' ∈ (ProcessWithdraw s db req claims txId now).1.accounts, 0 ≤ a'.balance) ∧
    (∀ (req : TransferRequest) (claims : Claims) (txId now : String),
      ∀ a' ∈ (ProcessTransfer s db req claims txId now).1.1.accounts, 0 ≤ a'.balance) ∧
    (∀ (req : TransactionRequest) (claims : Claims) (txId now : String) (acc : Account),
      0 < req.amount →
      db.accounts.find? (fun a => a.id == req.accountId && a.userId == claims.userId) = some acc →
      acc.balanceHash = CreateHMAC (fmtData acc.balance req.accountId) s.secretKey →
      acc.balance < req.amount →
      ProcessWithdraw s db req claims txId now =
        (db, .error ⟨400, "Insufficient funds",
          "account_id: " ++ intStr req.accountId ++ ", balance: " ++ fmt6 acc.balance ++
          ", requested: " ++ fmt6 req.amount⟩)) ∧
    (∀ (req : TransferRequest) (claims : Claims) (txId now : String) (fromAcc : Account),
      0 < req.amount → req.fromId ≠ req.toId →
      db.accounts.find? (fun a => a.id == req.fromId && a.userId == claims.userId) = some fromAcc →
      fromAcc.balanceHash = CreateHMAC (fmtData fromAcc.balance req.fromId) s.secretKey →
      fromAcc.balance < req.amount →
      ProcessTransfer s db req claims txId now =
        ((db, .error ⟨400, "Insufficient funds in source account",
          "account_id: " ++ intStr req.fromId ++ ", balance: " ++ fmt6 fromAcc.balance ++
          ", requested: " ++ fmt6 req.amount⟩), [req.fromId])) := by
  refine ⟨?_, ?_, ?_, ?_, ?_⟩
  · intro req claims txId now a' ha'
    rcases le_or_lt req.amount 0 with hamt | hamt
    · rw [deposit_invalid_eq s db req claims txId now hamt] at ha'
      exact hpos a' ha'
    · cases hfind : db.accounts.find? (fun a => a.id == req.accountId && a.userId == claims.userId) with
      | none =>
        rw [deposit_notfound_eq s db req claims txId now hamt hfind] at ha'
        exact hpos a' ha'
      | some acc =>
        by_cases hok : acc.balanceHash = CreateHMAC (fmtData acc.balance req.accountId) s.secretKey
        · rw [deposit_success_eq s db req claims txId now acc hamt hfind hok] at ha'
          rcases mem_upd ha' with hbal | hmem
          · rw [hbal]
            exact fadd_nonneg (hpos acc (List.mem_of_find?_eq_some hfind)) (le_of_lt hamt)
          · exact hpos a' hmem
        · rw [deposit_integrity_eq s db req claims txId now acc hamt hfind hok] at ha'
          exact hpos a' ha'
  · intro req claims txId now a' ha'
    rcases le_or_lt req.amount 0 with hamt | hamt
    · rw [withdraw_invalid_eq s db req claims txId now hamt] at ha'
      exact hpos a' ha'
    · cases hfind : db.accounts.find? (fun a => a.id == req.accountId && a.userId == claims.userId) with
      | none =>
        rw [withdraw_notfound_eq s db req claims txId now hamt hfind] at ha'
        exact hpos a' ha'
      | some acc =>
        by_cases hok : acc.balanceHash = CreateHMAC (fmtData acc.balance req.accountId) s.secretKey
        · rcases lt_or_le acc.balance req.amount with hshort | hfunds
          · rw [withdraw_insufficient_eq s db req claims txId now acc hamt hfind hok hshort] at ha'
            exact hpos a' ha'
          · rw [withdraw_success_eq s db req claims txId now acc hamt hfind hok hfunds] at ha'
            rcases mem_upd ha' with hbal | hmem
            · rw [hbal]
              exact fsub_nonneg hfunds
            · exact hpos a' hmem
        · rw [withdraw_integrity_eq s db req claims txId now acc hamt hfind hok] at ha'
          exact hpos a' ha'
  · intro req claims txId now a' ha'
    rcases le_or_lt req.amount 0 with hamt | hamt
    · rw [transfer_invalid_eq s db req claims txId now hamt] at ha'
      exact hpos a' ha'
    · by_cases hsame : req.fromId = req.toId
      · rw [transfer_same_eq s db req claims txId now hamt hsame] at ha'
        exact hpos a' ha'
      · cases hfrom : db.accounts.find? (fun a => a.id == req.fromId && a.userId == claims.userId) with
        | none =>
          rw [transfer_src_notfound_eq s db req claims txId now hamt hsame hfrom] at ha'
          exact hpos a' ha'
        | some fromAcc =>
          by_cases hokf : fromAcc.balanceHash = CreateHMAC (fmtData fromAcc.balance req.fromId) s.secretKey
          · rcases lt_or_le fromAcc.balance req.amount with hshort | hfunds
            · rw [transfer_insufficient_eq s db req claims txId now fromAcc hamt hsame hfrom hokf hshort] at ha'
              exact hpos a' ha'
            · cases hto : db.accounts.find? (fun a => a.id == req.toId) with
              | none =>
                rw [transfer_dst_notfound_eq s db req claims txId now fromAcc hamt hsame hfrom hokf hfunds hto] at ha'
                exact hpos a' ha'
              | some toAcc =>
                by_cases hokt : toAcc.balanceHash = CreateHMAC (fmtData toAcc.balance req.toId) s.secretKey
                · rw [transfer_success_eq s db req claims txId now fromAcc toAcc hamt hsame hfrom hokf hfunds hto hokt] at ha'
                  rcases mem_upd ha' with hbal | hmem
                  · rw [hbal]
                    exact fadd_nonneg (hpos toAcc (List.mem_of_find?_eq_some hto)) (le_of_lt hamt)
                  · rcases mem_upd hmem with hbal | hmem2
                    · rw [hbal]
                      exact fsub_nonneg hfunds
                    · exact hpos a' hmem2
                · rw [transfer_dst_integrity_eq s db req claims txId now fromAcc toAcc hamt hsame hfrom hokf hfunds hto hokt] at ha'
                  exact hpos a' ha'
          · rw [transfer_src_integrity_eq s db req claims txId now fromAcc hamt hsame hfrom hokf] at ha'
            exact hpos a' ha'
  · exact fun req claims txId now acc hamt hfind hok hshort =>
      withdraw_insufficient_eq s db req claims txId now acc hamt hfind hok hshort
  · exact fun req claims txId now fromAcc hamt hne hfrom hokf hshort =>
      transfer_insufficient_eq s db req claims txId now fromAcc hamt hne hfrom hokf hshort

/-- C7 witness: on a store holding one validly tagged account with balance
30, any deposit keeps balances nonnegative and withdrawing 50 fails with
`InsufficientFundsError` leaving the store unchanged. -/
theorem c7_witness :
    (∀ a' ∈ (ProcessDeposit ⟨"bankx-secret"⟩
        ⟨[], [⟨1, 7, 30, CreateHMAC (fmtData 30 1) "bankx-secret", "t0"⟩], []⟩
        ⟨1, 5⟩ ⟨7⟩ "tx-1" "t1").1.accounts, 0 ≤ a'.balance) ∧
    ProcessWithdraw ⟨"bankx-secret"⟩
        ⟨[], [⟨1, 7, 30, CreateHMAC (fmtData 30 1) "bankx-secret", "t0"⟩], []⟩
        ⟨1, 50⟩ ⟨7⟩ "tx-2" "t1" =
      (⟨[], [⟨1, 7, 30, CreateHMAC (fmtData 30 1) "bankx-secret", "t0"⟩], []⟩,
       .error ⟨400, "Insufficient funds",
         "account_id: " ++ intStr 1 ++ ", balance: " ++ fmt6 30 ++ ", requested: " ++ fmt6 50⟩) := by
  have h := c7_no_negative_balances ⟨"bankx-secret"⟩
    ⟨[], [⟨1, 7, 30, CreateHMAC (fmtData 30 1) "bankx-secret", "t0"⟩], []⟩
    (by intro a ha
        have : a = ⟨1, 7, 30, CreateHMAC (fmtData 30 1) "bankx-secret", "t0"⟩ := by
          simpa using ha
        rw [this]
        norm_num)
  exact ⟨fun a' ha' => h.1 ⟨1, 5⟩ ⟨7⟩ "tx-1" "t1" a' ha',
    h.2.2.2.1 ⟨1, 50⟩ ⟨7⟩ "tx-2" "t1"
      ⟨1, 7, 30, CreateHMAC (fmtData 30 1) "bankx-secret", "t0"⟩
      (by norm_num) rfl rfl (by norm_num)⟩

/-- C8 (amended): the two accounts of a transfer are always queried source
first and destination second — the program order of the two lookups — not in
ascending account id. -/
theorem c8_fetch_order_amended (s : TransactionService) (db : DB) (req : TransferRequest)
    (claims : Claims) (txId now : String)
    (hamt : 0 < req.amount) (hne : req.fromId ≠ req.toId) :
    (ProcessTransfer s db req claims txId now).2 = [req.fromId] ∨
    (ProcessTransfer s db req claims txId now).2 = [req.fromId, req.toId] := by
  cases hfrom : db.accounts.find? (fun a => a.id == req.fromId && a.userId == claims.userId) with
  | none =>
    rw [transfer_src_notfound_eq s db req claims txId now hamt hne hfrom]
    exact Or.inl rfl
  | some fromAcc =>
    by_cases hokf : fromAcc.balanceHash = CreateHMAC (fmtData fromAcc.balance req.fromId) s.secretKey
    · rcases lt_or_le fromAcc.balance req.amount with hshort | hfunds
      · rw [transfer_insufficient_eq s db req claims txId now fromAcc hamt hne hfrom hokf hshort]
        exact Or.inl rfl
      · cases hto : db.accounts.find? (fun a => a.id == req.toId) with
        | none =>
          rw [transfer_dst_notfound_eq s db req claims txId now fromAcc hamt hne hfrom hokf hfunds hto]
          exact Or.inr rfl
        | some toAcc =>
          by_cases hokt : toAcc.balanceHash = CreateHMAC (fmtData toAcc.balance req.toId) s.secretKey
          · rw [transfer_success_eq s db req claims txId now fromAcc toAcc hamt hne hfrom hokf hfunds hto hokt]
            exact Or.inr rfl
          · rw [transfer_dst_integrity_eq s db req claims txId now fromAcc toAcc hamt hne hfrom hokf hfunds hto hokt]
            exact Or.inr rfl
    · rw [transfer_src_integrity_eq s db req claims txId now fromAcc hamt hne hfrom hokf]
      exact Or.inl rfl

set_option maxRecDepth 4000 in
/-- C8 counterexample: a committed transfer from account 2 to account 1
queries account 2 (the source, the LARGER id) first: the query order is
[2, 1], not the ascending [1, 2] the claim asserts. -/
theorem c8_counterexample :
    (ProcessTransfer ⟨"bankx-secret"⟩
      ⟨[], [⟨1, 7, 10, CreateHMAC (fmtData 10 1) "bankx-secret", "t0"⟩,
            ⟨2, 7, 10, CreateHMAC (fmtData 10 2) "bankx-secret", "t0"⟩], []⟩
      ⟨2, 1, 5⟩ ⟨7⟩ "tx-1" "t1").2 = [2, 1] ∧
    (ProcessTransfer ⟨"bankx-secret"⟩
      ⟨[], [⟨1, 7, 10, CreateHMAC (fmtData 10 1) "bankx-secret", "t0"⟩,
            ⟨2, 7, 10, CreateHMAC (fmtData 10 2) "bankx-secret", "t0"⟩], []⟩
      ⟨2, 1, 5⟩ ⟨7⟩ "tx-1" "t1").1.2 = .ok "tx-1" ∧
    ([2, 1] : List ℤ) ≠ [1, 2] := by
  have h := transfer_success_eq ⟨"bankx-secret"⟩
    ⟨[], [⟨1, 7, 10, CreateHMAC (fmtData 10 1) "bankx-secret", "t0"⟩,
          ⟨2, 7, 10, CreateHMAC (fmtData 10 2) "bankx-secret", "t0"⟩], []⟩
    ⟨2, 1, 5⟩ ⟨7⟩ "tx-1" "t1"
    ⟨2, 7, 10, CreateHMAC (fmtData 10 2) "bankx-secret", "t0"⟩
    ⟨1, 7, 10, CreateHMAC (fmtData 10 1) "bankx-secret", "t0"⟩
    (by norm_num) (by decide) rfl rfl (by norm_num) rfl rfl
  exact ⟨by rw [h], by rw [h], by decide⟩

/-- C8 witness: the amended order statement at the counterexample's inputs:
the trace starts with the source id 2. -/
theorem c8_witness :
    (ProcessTransfer ⟨"bankx-secret"⟩
      ⟨[], [⟨1, 7, 10, CreateHMAC (fmtData 10 1) "bankx-secret", "t0"⟩,
            ⟨2, 7, 10, CreateHMAC (fmtData 10 2) "bankx-secret", "t0"⟩], []⟩
      ⟨2, 1, 5⟩ ⟨7⟩ "tx-1" "t1").2 = [2] ∨
    (ProcessTransfer ⟨"bankx-secret"⟩
      ⟨[], [⟨1, 7, 10, CreateHMAC (fmtData 10 1) "bankx-secret", "t0"⟩,
            ⟨2, 7, 10, CreateHMAC (fmtData 10 2) "bankx-secret", "t0"⟩], []⟩
      ⟨2, 1, 5⟩ ⟨7⟩ "tx-1" "t1").2 = [2, 1] :=
  c8_fetch_order_amended ⟨"bankx-secret"⟩
    ⟨[], [⟨1, 7, 10, CreateHMAC (fmtData 10 1) "bankx-secret", "t0"⟩,
          ⟨2, 7, 10, CreateHMAC (fmtData 10 2) "bankx-secret", "t0"⟩], []⟩
    ⟨2, 1, 5⟩ ⟨7⟩ "tx-1" "t1" (by norm_num) (by decide)

/-- C9: the integrity tag is never exposed: serializing any two account
lists that differ only in their `BalanceHash` values yields identical JSON
bodies, and the serialized account carries exactly the fields `id`,
`user_id`, `balance`, `created_at` (never the tag). -/
theorem c9_tag_never_serialized :
    (∀ l1 l2 : List Account, List.Forall₂ sameExceptHash l1 l2 →
      l1.map accountJson = l2.map accountJson) ∧
    (∀ a : Account, (accountJson a).map Prod.fst = ["id", "user_id", "balance", "created_at"]) := by
  constructor
  · intro l1 l2 h
    induction h with
    | nil => rfl
    | cons hab _ ih =>
      rcases hab with ⟨h1, h2, h3, h4⟩
      simp only [List.map_cons, ih, accountJson, h1, h2, h3, h4]
  · intro a
    rfl

/-- C9 witness: two singleton account lists with different tags serialize to
the same body. -/
theorem c9_witness :
    [(⟨1, 7, 30, "hash-one", "t0"⟩ : Account)].map accountJson =
      [(⟨1, 7, 30, "hash-two", "t0"⟩ : Account)].map accountJson :=
  c9_tag_never_serialized.1 _ _
    (List.Forall₂.cons ⟨rfl, rfl, rfl, rfl⟩ List.Forall₂.nil)

/-- C10: `main` threads the single `JWT_SECRET` value into all three
services: it is the transaction and account services' tag key, the auth
service's JWT key, the HS256 key that signs login tokens, and the key of the
initial balance hash written at registration. -/
theorem c10_one_secret (jwtSecret : String) :
    (mainApp jwtSecret).transactionService.secretKey = jwtSecret ∧
    (mainApp jwtSecret).authService.jwtKey = jwtSecret ∧
    (mainApp jwtSecret).accountService.secretKey = jwtSecret ∧
    (∀ input, LoginSignature (mainApp jwtSecret).authService input =
      hmacSHA256 (strBytes jwtSecret) (strBytes input)) ∧
    (∀ (db : DB) username hashedPassword uid aid now,
      db.users.any (fun u => u.username == username) = false →
      (Register (mainApp jwtSecret).authService db username hashedPassword uid aid now).1.accounts =
        db.accounts ++ [⟨aid, uid, 0, CalculateBalanceHash 0 uid jwtSecret, now⟩]) ∧
    (∀ (db : DB) req claims txId now,
      ProcessDeposit (mainApp jwtSecret).transactionService db req claims txId now =
        ProcessDeposit (NewTransactionService jwtSecret) db req claims txId now) := by
  refine ⟨rfl, rfl, rfl, fun _ => rfl, ?_, fun _ _ _ _ _ => rfl⟩
  intro db username hashedPassword uid aid now hany
  simp only [Register, mainApp, NewAuthService, hany, Bool.false_eq_true, if_false]

/-- C10 witness: with secret key `"bankx-secret"`, a registration in an
empty store writes the initial tag under that same secret. -/
theorem c10_witness :
    (Register (mainApp "bankx-secret").authService ⟨[], [], []⟩ "alice" "digest" 1 1 "t0").1.accounts =
      [⟨1, 1, 0, CalculateBalanceHash 0 1 "bankx-secret", "t0"⟩] := by
  have h := (c10_one_secret "bankx-secret").2.2.2.2.1 ⟨[], [], []⟩ "alice" "digest" 1 1 "t0" rfl
  simpa using h

end BankX
